import Mathlib

/-!
# Verification of the vcast state-synchronization core

Shallow embedding of the vcast repository's state store (`src/state.ts`),
stream-URL resolution (`src/stream.ts`), the JSON-RPC endpoint
(`src/mcp.ts`) and the WebSocket broadcast loop (`src/server.ts`),
together with proofs about the claims of the specification.

Modelling conventions:
* JavaScript numbers are embedded as `ℚ` (the claims only exercise exact
  value merging, never float rounding).
* JavaScript plain objects used as string-keyed records
  (`audio`, `windows`) are embedded as insertion-ordered association
  lists with unique keys; property read, property write and `delete` are
  `getKey?`, `setKey` and `eraseKey` below.
* `undefined` (an absent field of a partial-update object or of a parsed
  JSON file) is embedded as `Option.none`; a present field is `some v`.
* Exceptions are embedded as `Except String`.
-/

namespace Vcast

/-- `StreamSource` from `src/state.ts`. -/
structure StreamSource where
  id : String
  platform : String
  embedUrl : String
  originalUrl : String
  addedAt : ℚ
deriving DecidableEq, Repr

/-- `Layout` from `src/state.ts`. -/
structure Layout where
  rows : ℚ
  columns : ℚ
deriving DecidableEq, Repr

/-- The four overlay positions of `TextOverlay.position`. -/
inductive OverlayPos where
  | top | bottom | left | right
deriving DecidableEq, Repr

/-- `TextOverlay` from `src/state.ts`. -/
structure TextOverlay where
  text : String
  position : OverlayPos
  scrolling : Bool
deriving DecidableEq, Repr

/-- The value type of the `audio` record: `{volume, muted}`. -/
structure AudioSettings where
  volume : ℚ
  muted : Bool
deriving DecidableEq, Repr

/-- The value type of the `windows` record: `{x, y, width, height}`. -/
structure WindowRect where
  x : ℚ
  y : ℚ
  width : ℚ
  height : ℚ
deriving DecidableEq, Repr

/-- A JavaScript object used as a string-keyed record, embedded as an
insertion-ordered association list (keys unique by construction of the
operations below). -/
abbrev JsRecord (β : Type) : Type := List (String × β)

/-- Property read `m[k]`: `some v` when present, `none` for `undefined`. -/
def getKey? : JsRecord β → String → Option β
  | [], _ => none
  | (k', v) :: t, k => if k' = k then some v else getKey? t k

/-- Property write `m[k] = v`: overwrites the (unique) existing binding in
place when the key exists, appends otherwise (JS objects preserve
insertion order). -/
def setKey : JsRecord β → String → β → JsRecord β
  | [], k, v => [(k, v)]
  | (k', w) :: t, k, v => if k' = k then (k, v) :: t else (k', w) :: setKey t k v

/-- `delete m[k]`. -/
def eraseKey (m : JsRecord β) (k : String) : JsRecord β :=
  m.filter (fun p => p.1 ≠ k)

theorem getKey?_setKey_self (m : JsRecord β) (k : String) (v : β) :
    getKey? (setKey m k v) k = some v := by
  induction m with
  | nil => simp [setKey, getKey?]
  | cons q t ih =>
    obtain ⟨k', w⟩ := q
    by_cases hq : k' = k
    · simp [setKey, getKey?, hq]
    · simp [setKey, getKey?, hq, ih]

theorem getKey?_setKey_ne (m : JsRecord β) (k k' : String) (v : β)
    (hne : k' ≠ k) : getKey? (setKey m k v) k' = getKey? m k' := by
  induction m with
  | nil => simp [setKey, getKey?, Ne.symm hne]
  | cons q t ih =>
    obtain ⟨k₀, w⟩ := q
    by_cases hq : k₀ = k
    · subst hq
      simp [setKey, getKey?, Ne.symm hne]
    · by_cases hq' : k₀ = k'
      · subst hq'
        simp [setKey, getKey?, hq, hne]
      · simp [setKey, getKey?, hq, hq', ih]

theorem getKey?_eraseKey_self (m : JsRecord β) (k : String) :
    getKey? (eraseKey m k) k = none := by
  induction m with
  | nil => simp [eraseKey, getKey?]
  | cons q t ih =>
    obtain ⟨k₀, w⟩ := q
    by_cases hq : k₀ = k
    · simpa [eraseKey, List.filter, hq] using ih
    · simpa [eraseKey, List.filter, hq, getKey?] using ih

theorem getKey?_eraseKey_ne (m : JsRecord β) (k k' : String) (hne : k' ≠ k) :
    getKey? (eraseKey m k) k' = getKey? m k' := by
  induction m with
  | nil => simp [eraseKey, getKey?]
  | cons q t ih =>
    obtain ⟨k₀, w⟩ := q
    by_cases hq : k₀ = k
    · subst hq
      simpa [eraseKey, List.filter, getKey?, Ne.symm hne] using ih
    · by_cases hq' : k₀ = k'
      · subst hq'
        simp [eraseKey, List.filter, hq, getKey?]
      · simpa [eraseKey, List.filter, hq, hq', getKey?] using ih

theorem eraseKey_of_not_mem (m : JsRecord β) (k : String)
    (h : getKey? m k = none) : eraseKey m k = m := by
  induction m with
  | nil => rfl
  | cons q t ih =>
    obtain ⟨k₀, w⟩ := q
    by_cases hq : k₀ = k
    · simp [getKey?, hq] at h
    · simp only [getKey?, if_neg hq] at h
      simpa [eraseKey, List.filter, hq] using ih h

/-- `ConfigShape` from `src/state.ts`: the whole persisted document. -/
structure ConfigShape where
  version : ℚ
  sources : List StreamSource
  layout : Layout
  audio : JsRecord AudioSettings
  windows : JsRecord WindowRect
  textOverlay : TextOverlay
  showIds : Bool
  youtubeNoCookie : Bool
  hideCursor : Bool
deriving DecidableEq, Repr

/-- `DEFAULT_CONFIG` from `src/state.ts`. -/
def DEFAULT_CONFIG : ConfigShape where
  version := 1
  sources := []
  layout := { rows := 2, columns := 2 }
  audio := []
  windows := []
  textOverlay := { text := "", position := .top, scrolling := false }
  showIds := true
  youtubeNoCookie := true
  hideCursor := false

/-- `StreamParseResult` from `src/stream.ts` (a `StreamSource` without
`addedAt`, which `addSource` stamps itself). -/
structure StreamParseResult where
  id : String
  platform : String
  embedUrl : String
  originalUrl : String
deriving DecidableEq, Repr

/-- The payload `{...source, addedAt: Date.now()}` built by `addSource`;
`now` stands for the `Date.now()` timestamp. -/
def mkPayload (source : StreamParseResult) (now : ℚ) : StreamSource where
  id := source.id
  platform := source.platform
  embedUrl := source.embedUrl
  originalUrl := source.originalUrl
  addedAt := now

/-- `VcastState.addSource` from `src/state.ts`: looks up the first index
whose `id` matches (`findIndex`, `-1`/`none` when absent), replaces in
place or pushes, then initializes `audio[id]` when the property is absent
(`!this.data.audio[source.id]`; present audio values are objects, hence
always truthy, so the test is exactly "absent").  Returns the updated
document together with the returned `payload`. -/
def addSource (cfg : ConfigShape) (source : StreamParseResult) (now : ℚ) :
    ConfigShape × StreamSource :=
  let existingIdx := cfg.sources.findIdx? (fun s => s.id = source.id)
  let payload := mkPayload source now
  let sources' := match existingIdx with
    | some i => cfg.sources.set i payload
    | none => cfg.sources ++ [payload]
  let audio' := if (getKey? cfg.audio source.id).isNone then
      setKey cfg.audio source.id ⟨1, false⟩
    else cfg.audio
  ({ cfg with sources := sources', audio := audio' }, payload)

/-- `VcastState.removeSource` from `src/state.ts`. -/
def removeSource (cfg : ConfigShape) (id : String) : ConfigShape :=
  { cfg with
    sources := cfg.sources.filter (fun s => s.id ≠ id)
    audio := eraseKey cfg.audio id
    windows := eraseKey cfg.windows id }

/-- The partial `{rows?, columns?}` accepted by `updateLayout`. -/
structure LayoutPartial where
  rows : Option ℚ := none
  columns : Option ℚ := none
deriving DecidableEq, Repr

/-- `VcastState.updateLayout` from `src/state.ts`; `??` (nullish
coalescing) on an optional field is `Option.getD`, so a present `0`
still overwrites. -/
def updateLayout (cfg : ConfigShape) (layout : LayoutPartial) : ConfigShape :=
  { cfg with layout :=
      { rows := layout.rows.getD cfg.layout.rows
        columns := layout.columns.getD cfg.layout.columns } }

/-- The partial `{volume?, muted?}` accepted by `updateAudio`. -/
structure AudioPartial where
  volume : Option ℚ := none
  muted : Option Bool := none
deriving DecidableEq, Repr

/-- `VcastState.updateAudio` from `src/state.ts`: `existing` is
`this.data.audio[id] || {volume: 1, muted: false}` (a present audio value
is an object, always truthy, so `||` is exactly "default when absent"). -/
def updateAudio (cfg : ConfigShape) (id : String) (audio : AudioPartial) :
    ConfigShape :=
  let existing := (getKey? cfg.audio id).getD ⟨1, false⟩
  let merged : AudioSettings :=
    { volume := audio.volume.getD existing.volume
      muted := audio.muted.getD existing.muted }
  { cfg with audio := setKey cfg.audio id merged }

/-- The partial `{x?, y?, width?, height?}` accepted by `updateWindow`. -/
structure WindowPartial where
  x : Option ℚ := none
  y : Option ℚ := none
  width : Option ℚ := none
  height : Option ℚ := none
deriving DecidableEq, Repr

/-- `VcastState.updateWindow` from `src/state.ts`. -/
def updateWindow (cfg : ConfigShape) (id : String) (window : WindowPartial) :
    ConfigShape :=
  let existing := (getKey? cfg.windows id).getD ⟨0, 0, 1, 1⟩
  let merged : WindowRect :=
    { x := window.x.getD existing.x
      y := window.y.getD existing.y
      width := window.width.getD existing.width
      height := window.height.getD existing.height }
  { cfg with windows := setKey cfg.windows id merged }

/-- The partial `{text?, position?, scrolling?}` accepted by
`updateTextOverlay`. -/
structure OverlayPartial where
  text : Option String := none
  position : Option OverlayPos := none
  scrolling : Option Bool := none
deriving DecidableEq, Repr

/-- `VcastState.updateTextOverlay` from `src/state.ts`. -/
def updateTextOverlay (cfg : ConfigShape) (overlay : OverlayPartial) :
    ConfigShape :=
  { cfg with textOverlay :=
      { text := overlay.text.getD cfg.textOverlay.text
        position := overlay.position.getD cfg.textOverlay.position
        scrolling := overlay.scrolling.getD cfg.textOverlay.scrolling } }

/-- `VcastState.updateShowIds` from `src/state.ts`. -/
def updateShowIds (cfg : ConfigShape) (b : Bool) : ConfigShape :=
  { cfg with showIds := b }

/-- `VcastState.updateYoutubeNoCookie` from `src/state.ts`. -/
def updateYoutubeNoCookie (cfg : ConfigShape) (b : Bool) : ConfigShape :=
  { cfg with youtubeNoCookie := b }

/-- `VcastState.updateHideCursor` from `src/state.ts`. -/
def updateHideCursor (cfg : ConfigShape) (b : Bool) : ConfigShape :=
  { cfg with hideCursor := b }

/-- The comparator key of `VcastState.reorder`'s `sort` callback: a source
whose id sits at position `i` of `order` gets key `i`; a source whose id
is not listed (`indexOf === -1`) compares after every listed one, which is
the same ordering as giving it key `order.length`. -/
def jsSortKey (order : List String) (s : StreamSource) : ℕ :=
  match order.findIdx? (fun oid => oid = s.id) with
  | some i => i
  | none => order.length

/-- `VcastState.reorder` from `src/state.ts`:
`[...sources].sort((a, b) => ...)` with the comparator `ai - bi` after
mapping `-1` to "after all listed ids".  `Array.prototype.sort` is
required to be stable by ECMAScript 2019 and later, and the comparator is
a total preorder induced by `jsSortKey`, so the call is embedded as a
stable insertion sort by that key. -/
def reorder (cfg : ConfigShape) (order : List String) : ConfigShape :=
  let sorted :=
    List.insertionSort (fun a b => jsSortKey order a ≤ jsSortKey order b)
      cfg.sources
  { cfg with sources := sorted }

/-- `VcastState.snapshot` from `src/state.ts`:
`JSON.parse(JSON.stringify(this.data))` is a deep copy, i.e. the identity
at the level of values (aliasing is outside the embedding; the claims
about snapshots being "copies, not references" are captured by the
snapshot being *equal* to the document). -/
def snapshot (cfg : ConfigShape) : ConfigShape := cfg

/-! ## Change fan-out (`emit`, `onChange`) and the WebSocket broadcast -/

/-- A listener registered through `VcastState.onChange`.  Its JS body may
throw; `Except.error` is a thrown exception, `Except.ok` a normal
return. -/
abbrev Listener := ConfigShape → Except String Unit

/-- `VcastState.emit` from `src/state.ts`:
`const snapshot = this.snapshot(); for (const fn of this.listeners) fn(snapshot);`
The loop body is *not* wrapped in try/catch, so the first listener that
throws aborts the loop and the exception propagates to `emit`'s caller.
`emitRun` returns how many listeners were invoked together with the
escaped exception, if any; `listeners` is in subscription order (a JS
`Set` iterates in insertion order). -/
def emitRun (listeners : List Listener) (cfg : ConfigShape) : ℕ × Option String :=
  go listeners (snapshot cfg)
where
  go : List Listener → ConfigShape → ℕ × Option String
    | [], _ => (0, none)
    | fn :: rest, snap =>
      match fn snap with
      | .ok _ => let (n, e) := go rest snap; (n + 1, e)
      | .error e => (1, some e)

/-- `VcastState.update` from `src/state.ts` restricted to its in-memory
effect and fan-out: run the mutator, then notify every listener with the
fresh snapshot (persistence is the subject of `toPersisted`/`load`
below).  For the success path the listeners are plain functions
`ConfigShape → α` and the result collects, in subscription order, the
value each listener was invoked with. -/
def updateAndNotify (mutator : ConfigShape → ConfigShape)
    (cfg : ConfigShape) (listeners : List (ConfigShape → α)) :
    ConfigShape × List α :=
  let cfg' := mutator cfg
  (cfg', listeners.map (fun fn => fn (snapshot cfg')))

/-- The `broadcast` closure from `src/server.ts`: each client's
`client.send(message)` is individually wrapped in `try { ... } catch`,
the catch only logging.  A client's send function errs with
`Except.error` for a broken socket; `broadcastRun` records each client's
outcome (`none` = delivered, `some e` = caught error) and is total:
every client is attempted and no exception escapes. -/
def broadcastRun (clients : List (String → Except String Unit))
    (message : String) : List (Option String) :=
  clients.map (fun send =>
    match send message with
    | .ok _ => none
    | .error e => some e)

/-! ## Persistence (`load`, `save`, the merge over defaults) -/

/-- The result of `JSON.parse` on a persisted config file, field-wise:
`none` is a field missing from the file, `some v` a present (well-typed)
field.  Present object/array fields are always truthy in JS, so `||`
against them behaves exactly like `Option.getD`; the boolean fields are
merged with `??`, which is `Option.getD` by definition of nullish
coalescing. -/
structure PersistedConfig where
  version : Option ℚ := none
  sources : Option (List StreamSource) := none
  layout : Option Layout := none
  audio : Option (JsRecord AudioSettings) := none
  windows : Option (JsRecord WindowRect) := none
  textOverlay : Option TextOverlay := none
  showIds : Option Bool := none
  youtubeNoCookie : Option Bool := none
  hideCursor : Option Bool := none
deriving DecidableEq, Repr

/-- The merge expression of `VcastState.load` from `src/state.ts`:
`{...DEFAULT_CONFIG, ...parsed, layout: parsed.layout || DEFAULT_CONFIG.layout,
sources: parsed.sources || [], audio: parsed.audio || {},
windows: parsed.windows || {}, textOverlay: parsed.textOverlay || DEFAULT_CONFIG.textOverlay,
showIds: parsed.showIds ?? DEFAULT_CONFIG.showIds, ...}`.
`version` is only covered by the spreads, so a present value wins over
the default. -/
def mergeParsed (parsed : PersistedConfig) : ConfigShape where
  version := parsed.version.getD DEFAULT_CONFIG.version
  sources := parsed.sources.getD []
  layout := parsed.layout.getD DEFAULT_CONFIG.layout
  audio := parsed.audio.getD []
  windows := parsed.windows.getD []
  textOverlay := parsed.textOverlay.getD DEFAULT_CONFIG.textOverlay
  showIds := parsed.showIds.getD DEFAULT_CONFIG.showIds
  youtubeNoCookie := parsed.youtubeNoCookie.getD DEFAULT_CONFIG.youtubeNoCookie
  hideCursor := parsed.hideCursor.getD DEFAULT_CONFIG.hideCursor

/-- `VcastState.load` from `src/state.ts`: the argument is the outcome of
`fs.readFile` + `JSON.parse` (`Except.error` = unreadable file or
unparseable JSON, which the `catch` turns into the full defaults after
logging a warning); a parsed file is merged over the defaults.  `load`
is a total function: no input makes it fail. -/
def load (raw : Except String PersistedConfig) : ConfigShape :=
  match raw with
  | .ok parsed => mergeParsed parsed
  | .error _ => DEFAULT_CONFIG

/-- `VcastState.save` from `src/state.ts` at the value level:
`JSON.stringify(this.data, null, 2)` writes *every* field of the document
to the file, so reading the file back parses to a `PersistedConfig` in
which every field is present. -/
def toPersisted (cfg : ConfigShape) : PersistedConfig where
  version := some cfg.version
  sources := some cfg.sources
  layout := some cfg.layout
  audio := some cfg.audio
  windows := some cfg.windows
  textOverlay := some cfg.textOverlay
  showIds := some cfg.showIds
  youtubeNoCookie := some cfg.youtubeNoCookie
  hideCursor := some cfg.hideCursor

/-! ## Stream URL resolution (`src/stream.ts`)

The providers' `match` regexes are simple substring / anchored-prefix
tests and are embedded exactly.  The `extractId` bodies use the WHATWG
`new URL` parser; spec §1 excludes URL parsing as non-load-bearing glue,
and no claim depends on the extracted ids, so `new URL` is embedded as a
simplified scheme/host/path/query splitter (inside the same
try/catch-null structure as the source). -/

/-- `startsWith` on character lists (empty pattern always matches). -/
def listStartsWith : List Char → List Char → Bool
  | _, [] => true
  | [], _ :: _ => false
  | c :: cs, p :: ps => c = p && listStartsWith cs ps

/-- Substring test on character lists. -/
def listContainsSub (s pat : List Char) : Bool :=
  listStartsWith s pat ||
    match s with
    | [] => false
    | _ :: cs => listContainsSub cs pat

/-- ASCII lowercasing of one character (all the `/i` regex flags and the
URL hosts in play are ASCII). -/
def lowerChar (c : Char) : Char :=
  if 65 ≤ c.toNat ∧ c.toNat ≤ 90 then Char.ofNat (c.toNat + 32) else c

/-- ASCII lowercasing of a string, character-wise. -/
def strToLower (s : String) : String := ⟨s.data.map lowerChar⟩

/-- Case-insensitive substring test (`/pat/i.test(s)` for a literal
pattern `pat` given in lowercase). -/
def strContainsCI (s pat : String) : Bool :=
  listContainsSub (strToLower s).data pat.data

/-- Case-insensitive prefix test (`/^pat/i.test(s)` for a literal
lowercase pattern). -/
def strStartsWithCI (s pat : String) : Bool :=
  listStartsWith (strToLower s).data pat.data

/-- Split a character list at the first occurrence of any of the given
separators; returns the part before it and, when a separator was hit,
the separator with the part after it. -/
def splitFirst : List Char → List Char → List Char × Option (Char × List Char)
  | [], _ => ([], none)
  | c :: cs, seps =>
    if seps.contains c then ([], some (c, cs))
    else
      let (pre, rest) := splitFirst cs seps
      (c :: pre, rest)

/-- A parsed URL, the fragment of `new URL` the extractors consume. -/
structure UrlParts where
  host : String
  path : String
  query : String
deriving DecidableEq, Repr

/-- Modelled simplification of `new URL(url)`: accept only
`http://`/`https://` URLs (the only ones the repository feeds in),
split off host (up to `/`, `?` or `#`), path (up to `?` or `#`) and
query string; `none` embeds the constructor throwing. -/
def urlParse (url : String) : Option UrlParts :=
  let lower := strToLower url
  let after : Option (List Char) :=
    if listStartsWith lower.data "https://".data then some (url.data.drop 8)
    else if listStartsWith lower.data "http://".data then some (url.data.drop 7)
    else none
  match after with
  | none => none
  | some rest =>
    let (host, r1) := splitFirst rest ['/', '?', '#']
    if host.isEmpty then none
    else
      match r1 with
      | none => some ⟨⟨host⟩, "/", ""⟩
      | some ('/', r2) =>
        let (path, r3) := splitFirst r2 ['?', '#']
        match r3 with
        | some ('?', r4) =>
          let (query, _) := splitFirst r4 ['#']
          some ⟨⟨host⟩, ⟨'/' :: path⟩, ⟨query⟩⟩
        | _ => some ⟨⟨host⟩, ⟨'/' :: path⟩, ""⟩
      | some ('?', r2) =>
        let (query, _) := splitFirst r2 ['#']
        some ⟨⟨host⟩, "/", ⟨query⟩⟩
      | some (_, _) => some ⟨⟨host⟩, "/", ""⟩

/-- `u.searchParams.get(name)`: the value of the first `name=value` pair
of the query string, `none` when absent. -/
def queryGet (query : String) (name : String) : Option String :=
  go (query.splitOn "&")
where
  go : List String → Option String
    | [] => none
    | pair :: rest =>
      match pair.splitOn "=" with
      | key :: valueParts =>
        if key = name then some (String.intercalate "=" valueParts)
        else go rest
      | [] => go rest

/-- `u.pathname.split("/").filter(Boolean)`. -/
def pathParts (path : String) : List String :=
  (path.splitOn "/").filter (fun part => part ≠ "")

/-- `YouTubeProvider.extractId` from `src/stream.ts`. -/
def youtubeExtractId (url : String) : Option String :=
  match urlParse url with
  | none => none
  | some u =>
    if u.host = "youtu.be" then
      some (if u.path.startsWith "/" then u.path.drop 1 else u.path)
    else
      match queryGet u.query "v" with
      | some v => if v = "" then noV u else some v
      | none => noV u
where
  /-- The `pathParts.indexOf("v")` fallback of the same extractor
  (`searchParams.get("v")` returning `null` or `""` is falsy). -/
  noV (u : UrlParts) : Option String :=
    let parts := pathParts u.path
    match parts.findIdx? (fun part => part = "v") with
    | some i =>
      match parts.get? (i + 1) with
      | some nxt => if nxt = "" then none else some nxt
      | none => none
    | none => none

/-- `TwitchProvider.extractId` / `VimeoProvider.extractId`:
`parts[0] || null`. -/
def firstPartExtractId (url : String) : Option String :=
  match urlParse url with
  | none => none
  | some u =>
    match pathParts u.path with
    | [] => none
    | part :: _ => if part = "" then none else some part

/-- `NicoProvider.extractId`: `parts.pop() || null`. -/
def nicoExtractId (url : String) : Option String :=
  match urlParse url with
  | none => none
  | some u =>
    match (pathParts u.path).getLast? with
    | none => none
    | some part => if part = "" then none else some part

/-- The base64 alphabet used by `Buffer.toString("base64")`. -/
def base64Alphabet : List Char :=
  "ABCDEFGHIJKLMNOPQRSTUVWXYZabcdefghijklmnopqrstuvwxyz0123456789+/".data

/-- Base64 encoding of a byte list (with `=` padding), as
`Buffer.from(url).toString("base64")` produces. -/
def base64Encode : List ℕ → List Char
  | [] => []
  | [b1] =>
    [base64Alphabet.getD (b1 / 4) '?',
     base64Alphabet.getD (b1 % 4 * 16) '?', '=', '=']
  | [b1, b2] =>
    [base64Alphabet.getD (b1 / 4) '?',
     base64Alphabet.getD (b1 % 4 * 16 + b2 / 16) '?',
     base64Alphabet.getD (b2 % 16 * 4) '?', '=']
  | b1 :: b2 :: b3 :: rest =>
    base64Alphabet.getD (b1 / 4) '?' ::
    base64Alphabet.getD (b1 % 4 * 16 + b2 / 16) '?' ::
    base64Alphabet.getD (b2 % 16 * 4 + b3 / 64) '?' ::
    base64Alphabet.getD (b3 % 64) '?' ::
    base64Encode rest

/-- `GenericProvider.extractId`:
`Buffer.from(url).toString("base64").replace(/[^a-zA-Z0-9]/g, "")`.
Bytes are modelled as the code points of the characters (exact for the
ASCII URLs the repository handles). -/
def genericExtractId (url : String) : Option String :=
  let bytes := url.data.map Char.toNat
  let encoded := (base64Encode bytes).filter (fun c => c.isAlphanum)
  some ⟨encoded⟩

/-- The data of one `StreamProvider` subclass: `name`, the `match`
regex test, `extractId`, and `embedUrl`. -/
structure Provider where
  name : String
  matchUrl : String → Bool
  extractId : String → Option String
  embedOf : String → String

/-- `StreamProvider.parse` from `src/stream.ts`: `null` unless `match`
succeeds and `extractId` yields a truthy (non-null, non-empty) id. -/
def providerParse (pr : Provider) (url : String) : Option StreamParseResult :=
  if pr.matchUrl url then
    match pr.extractId url with
    | none => none
    | some i =>
      if i = "" then none
      else some
        { id := pr.name ++ ":" ++ i
          platform := pr.name
          embedUrl := pr.embedOf i
          originalUrl := url }
  else none

/-- `new YouTubeProvider()`. -/
def youtubeProvider : Provider where
  name := "youtube"
  matchUrl := fun url => strContainsCI url "youtube.com" || strContainsCI url "youtu.be"
  extractId := youtubeExtractId
  embedOf := fun i =>
    "https://www.youtube-nocookie.com/embed/" ++ i ++ "?autoplay=1&mute=1"

/-- `new TwitchProvider()`. -/
def twitchProvider : Provider where
  name := "twitch"
  matchUrl := fun url => strContainsCI url "twitch.tv"
  extractId := firstPartExtractId
  embedOf := fun i =>
    "https://player.twitch.tv/?channel=" ++ i ++ "&parent=localhost&parent=127.0.0.1"

/-- `new NicoProvider()`. -/
def nicoProvider : Provider where
  name := "nicovideo"
  matchUrl := fun url => strContainsCI url "nicovideo.jp" || strContainsCI url "nico.ms"
  extractId := nicoExtractId
  embedOf := fun i => "https://embed.nicovideo.jp/watch/" ++ i

/-- `new VimeoProvider()`. -/
def vimeoProvider : Provider where
  name := "vimeo"
  matchUrl := fun url => strContainsCI url "vimeo.com"
  extractId := firstPartExtractId
  embedOf := fun i => "https://player.vimeo.com/video/" ++ i

/-- `new GenericProvider()`; its overridden `parse` sets
`embedUrl := url`, which `genericParse` below realizes. -/
def genericProvider : Provider where
  name := "generic"
  matchUrl := fun url => strStartsWithCI url "http://" || strStartsWithCI url "https://"
  extractId := genericExtractId
  embedOf := fun _ => ""

/-- `GenericProvider.parse` (overrides the base `parse`: the embed URL is
the original URL itself). -/
def genericParse (url : String) : Option StreamParseResult :=
  match providerParse genericProvider url with
  | none => none
  | some r => some { r with embedUrl := url }

/-- `parseStream` from `src/stream.ts`: try the providers in order
(YouTube, Twitch, Nico, Vimeo, generic), first non-null `parse` wins,
otherwise `throw new Error("Unsupported stream URL")`. -/
def parseStream (url : String) : Except String StreamParseResult :=
  match providerParse youtubeProvider url with
  | some r => .ok r
  | none =>
  match providerParse twitchProvider url with
  | some r => .ok r
  | none =>
  match providerParse nicoProvider url with
  | some r => .ok r
  | none =>
  match providerParse vimeoProvider url with
  | some r => .ok r
  | none =>
  match genericParse url with
  | some r => .ok r
  | none => .error "Unsupported stream URL"

/-! ## The JSON-RPC endpoint (`src/mcp.ts`) -/

/-- The `params` object of an MCP request body; every field is optional
(absent = `undefined`). -/
structure McpParams where
  url : Option String := none
  id : Option String := none
  rows : Option ℚ := none
  columns : Option ℚ := none
  volume : Option ℚ := none
  muted : Option Bool := none
  x : Option ℚ := none
  y : Option ℚ := none
  width : Option ℚ := none
  height : Option ℚ := none
deriving DecidableEq, Repr

/-- A successfully parsed MCP request body `{id, method, params}`. -/
structure McpBody where
  id : Option ℚ := none
  method : Option String := none
  params : Option McpParams := none
deriving DecidableEq, Repr

/-- The possible `result` payloads the handler produces. -/
inductive McpValue where
  | sources (l : List StreamSource)
  | source (s : StreamSource)
  | okTrue
  | layout (l : Layout)
  | audioEntry (a : Option AudioSettings)
  | windowEntry (w : Option WindowRect)
  | null
deriving DecidableEq, Repr

/-- The JSON body of an MCP response: the `respond` envelope
(`{id, result}` or `{id, error}`) or the catch-block body
(`{error: message}`). -/
inductive McpResponseBody where
  | result (id : Option ℚ) (r : McpValue)
  | rpcError (id : Option ℚ) (e : String)
  | catchError (e : String)
deriving DecidableEq, Repr

/-- An HTTP response of the MCP endpoint: status code plus JSON body. -/
structure McpResponse where
  status : ℕ
  body : McpResponseBody
deriving DecidableEq, Repr

/-- The `respond(result, error?)` helper from `src/mcp.ts`:
`error ? {id, error} : {id, result}` (an empty string is falsy). -/
def respondM (id : Option ℚ) (r : McpValue) (error : Option String) :
    McpResponseBody :=
  match error with
  | some e => if e = "" then .result id r else .rpcError id e
  | none => .result id r

/-- JS truthiness test for an optional string (`!target` in
`src/mcp.ts`): falsy when absent or empty. -/
def strFalsy (s : Option String) : Bool :=
  match s with
  | none => true
  | some v => v = ""

/-- The `switch (method)` body of `handleMcpRequest` from `src/mcp.ts`,
run inside the surrounding `try`: `Except.error` is an exception thrown
while handling (in this code only `parseStream`).  Returns the response
body and the post-request document. -/
def handleMcpSwitch (body : McpBody) (st : ConfigShape) (now : ℚ) :
    Except String (McpResponseBody × ConfigShape) :=
  let id := body.id
  let p := body.params.getD {}
  if body.method = some "listSources" then
    .ok (respondM id (.sources (snapshot st).sources) none, st)
  else if body.method = some "addSource" then
    let target := body.params.bind (·.url)
    if strFalsy target then .ok (respondM id .null (some "url is required"), st)
    else
      match parseStream (target.getD "") with
      | .error e => .error e
      | .ok parsed =>
        let (st', created) := addSource st parsed now
        .ok (respondM id (.source created) none, st')
  else if body.method = some "removeSource" then
    let sourceId := body.params.bind (·.id)
    if strFalsy sourceId then .ok (respondM id .null (some "id is required"), st)
    else
      let st' := removeSource st (sourceId.getD "")
      .ok (respondM id .okTrue none, st')
  else if body.method = some "updateLayout" then
    let st' := updateLayout st { rows := p.rows, columns := p.columns }
    .ok (respondM id (.layout (snapshot st').layout) none, st')
  else if body.method = some "updateAudio" then
    let sourceId := body.params.bind (·.id)
    if strFalsy sourceId then .ok (respondM id .null (some "id is required"), st)
    else
      let st' := updateAudio st (sourceId.getD "") { volume := p.volume, muted := p.muted }
      .ok (respondM id (.audioEntry (getKey? (snapshot st').audio (sourceId.getD ""))) none, st')
  else if body.method = some "updateWindow" then
    let sourceId := body.params.bind (·.id)
    if strFalsy sourceId then .ok (respondM id .null (some "id is required"), st)
    else
      let st' := updateWindow st (sourceId.getD "")
        { x := p.x, y := p.y, width := p.width, height := p.height }
      .ok (respondM id (.windowEntry (getKey? (snapshot st').windows (sourceId.getD ""))) none, st')
  else
    .ok (respondM id .null (some "Unknown method"), st)

/-- `handleMcpRequest` from `src/mcp.ts`.  The argument is the outcome of
`request.json()` (`Except.error` = malformed body).  Any exception from
the `try` block — a body-parse failure or a throw inside the switch —
lands in the `catch`, which answers HTTP 400 with
`{error: err.message || "invalid request"}`; every switch result is
answered with the default HTTP status 200. -/
def handleMcpRequest (raw : Except String McpBody) (st : ConfigShape)
    (now : ℚ) : McpResponse × ConfigShape :=
  match raw with
  | .error e =>
    (⟨400, .catchError (if e = "" then "invalid request" else e)⟩, st)
  | .ok body =>
    match handleMcpSwitch body st now with
    | .ok (rb, st') => (⟨200, rb⟩, st')
    | .error e =>
      (⟨400, .catchError (if e = "" then "invalid request" else e)⟩, st)

/-! ## Example fixtures used by witnesses and counterexamples -/

/-- A concrete source with id `"a"`. -/
def srcA : StreamSource := ⟨"a", "pa", "ea", "oa", 0⟩

/-- A concrete source with id `"b"`. -/
def srcB : StreamSource := ⟨"b", "pb", "eb", "ob", 0⟩

/-- A concrete source with id `"c"`. -/
def srcC : StreamSource := ⟨"c", "pc", "ec", "oc", 0⟩

/-- A concrete source with id `"d"`. -/
def srcD : StreamSource := ⟨"d", "pd", "ed", "od", 0⟩

/-- A concrete document holding the four example sources. -/
def cfgABCD : ConfigShape :=
  { DEFAULT_CONFIG with sources := [srcA, srcB, srcC, srcD] }

/-- A parsed source carrying id `"b"` (same id as `srcB`). -/
def parsedB : StreamParseResult := ⟨"b", "pb2", "eb2", "ob2"⟩

/-- A parsed source carrying the fresh id `"e"`. -/
def parsedE : StreamParseResult := ⟨"e", "pe", "ee", "oe"⟩

/-! ## C1 — `addSource` upserts by id -/

/-- C1: for every document and parsed source, `addSource` upserts by id:
when some entry already has the id, the entry at the first matching index
is replaced in place and the length is unchanged; otherwise the payload
is appended.  `audio[id]` is initialized to `{volume: 1, muted: false}`
exactly when it was absent (a present entry survives untouched, as do
all other audio keys), and the stored payload is returned. -/
theorem addSource_upserts_by_id (cfg : ConfigShape) (s : StreamParseResult)
    (now : ℚ) :
    (∀ i, cfg.sources.findIdx? (fun t => t.id = s.id) = some i →
      (addSource cfg s now).1.sources = cfg.sources.set i (mkPayload s now) ∧
      (addSource cfg s now).1.sources.length = cfg.sources.length) ∧
    (cfg.sources.findIdx? (fun t => t.id = s.id) = none →
      (addSource cfg s now).1.sources = cfg.sources ++ [mkPayload s now]) ∧
    (getKey? cfg.audio s.id = none →
      getKey? (addSource cfg s now).1.audio s.id = some ⟨1, false⟩) ∧
    (getKey? cfg.audio s.id ≠ none →
      (addSource cfg s now).1.audio = cfg.audio) ∧
    (∀ k, k ≠ s.id →
      getKey? (addSource cfg s now).1.audio k = getKey? cfg.audio k) ∧
    (addSource cfg s now).2 = mkPayload s now ∧
    (addSource cfg s now).2 ∈ (addSource cfg s now).1.sources := by
  refine ⟨?_, ?_, ?_, ?_, ?_, ?_, ?_⟩
  · intro i h
    exact ⟨by simp [addSource, h], by simp [addSource, h]⟩
  · intro h
    simp [addSource, h]
  · intro h
    simp [addSource, h, getKey?_setKey_self]
  · intro h
    simp [addSource, Option.isNone_iff_eq_none, h]
  · intro k hk
    by_cases h : getKey? cfg.audio s.id = none
    · simp [addSource, h, getKey?_setKey_ne _ _ _ _ hk]
    · simp [addSource, Option.isNone_iff_eq_none, h]
  · rfl
  · rcases h : cfg.sources.findIdx? (fun t => t.id = s.id) with _ | i
    · simp [addSource, h]
    · have hi : i < cfg.sources.length :=
        (List.findIdx?_eq_some_iff_getElem.mp h).1
      have : mkPayload s now ∈ cfg.sources.set i (mkPayload s now) :=
        List.mem_set cfg.sources i hi (mkPayload s now)
      simpa [addSource, h] using this

/-- C1 witness: replacing `srcB` by the re-parsed `parsedB` in `cfgABCD`
keeps the length at 4 and the entry at index 1, initializes the audio
entry, and returns the stored payload. -/
theorem addSource_upserts_by_id_witness :
    (addSource cfgABCD parsedB 7).1.sources =
      [srcA, mkPayload parsedB 7, srcC, srcD] ∧
    (addSource cfgABCD parsedB 7).1.sources.length = 4 ∧
    getKey? (addSource cfgABCD parsedB 7).1.audio "b" = some ⟨1, false⟩ ∧
    (addSource cfgABCD parsedB 7).2 = mkPayload parsedB 7 := by
  have h := addSource_upserts_by_id cfgABCD parsedB 7
  have hidx : cfgABCD.sources.findIdx? (fun t => t.id = parsedB.id) = some 1 := by
    decide
  obtain ⟨hrep, -, hinit, -, -, hret, -⟩ := h
  obtain ⟨h1, h2⟩ := hrep 1 hidx
  refine ⟨?_, ?_, ?_, hret⟩
  · rw [h1]; decide
  · rw [h2]; decide
  · exact hinit (by decide)

/-! ## C4 — partial updates overwrite exactly the present fields -/

/-- C4: `updateLayout`, `updateAudio`, `updateWindow` and
`updateTextOverlay` overwrite exactly the fields present in the partial
(every present value overwrites, `false`, `0` and `""` included, since
`∀ v` ranges over them) and keep absent fields at their prior value;
`updateAudio` with no prior entry merges against `{volume: 1, muted: false}`
and `updateWindow` against `{x: 0, y: 0, width: 1, height: 1}`; the final
conjunct is the claim's example sequence
`updateAudio(id, {muted: true})` then `updateAudio(id, {volume: 0.3})`. -/
theorem partial_update_semantics (cfg : ConfigShape) (id : String)
    (lp : LayoutPartial) (ap : AudioPartial) (wp : WindowPartial)
    (op : OverlayPartial) :
    (∀ v, lp.rows = some v → (updateLayout cfg lp).layout.rows = v) ∧
    (lp.rows = none → (updateLayout cfg lp).layout.rows = cfg.layout.rows) ∧
    (∀ v, lp.columns = some v → (updateLayout cfg lp).layout.columns = v) ∧
    (lp.columns = none →
      (updateLayout cfg lp).layout.columns = cfg.layout.columns) ∧
    (∀ e, getKey? cfg.audio id = some e →
      getKey? (updateAudio cfg id ap).audio id =
        some ⟨ap.volume.getD e.volume, ap.muted.getD e.muted⟩) ∧
    (getKey? cfg.audio id = none →
      getKey? (updateAudio cfg id ap).audio id =
        some ⟨ap.volume.getD 1, ap.muted.getD false⟩) ∧
    (∀ e, getKey? cfg.windows id = some e →
      getKey? (updateWindow cfg id wp).windows id =
        some ⟨wp.x.getD e.x, wp.y.getD e.y, wp.width.getD e.width,
          wp.height.getD e.height⟩) ∧
    (getKey? cfg.windows id = none →
      getKey? (updateWindow cfg id wp).windows id =
        some ⟨wp.x.getD 0, wp.y.getD 0, wp.width.getD 1, wp.height.getD 1⟩) ∧
    (∀ v, op.text = some v → (updateTextOverlay cfg op).textOverlay.text = v) ∧
    (op.text = none →
      (updateTextOverlay cfg op).textOverlay.text = cfg.textOverlay.text) ∧
    (∀ v, op.position = some v →
      (updateTextOverlay cfg op).textOverlay.position = v) ∧
    (op.position = none →
      (updateTextOverlay cfg op).textOverlay.position =
        cfg.textOverlay.position) ∧
    (∀ v, op.scrolling = some v →
      (updateTextOverlay cfg op).textOverlay.scrolling = v) ∧
    (op.scrolling = none →
      (updateTextOverlay cfg op).textOverlay.scrolling =
        cfg.textOverlay.scrolling) ∧
    (getKey? cfg.audio id = none →
      getKey? (updateAudio (updateAudio cfg id { muted := some true }) id
          { volume := some (3/10) }).audio id = some ⟨3/10, true⟩) := by
  refine ⟨fun v h => by simp [updateLayout, h],
    fun h => by simp [updateLayout, h],
    fun v h => by simp [updateLayout, h],
    fun h => by simp [updateLayout, h],
    fun e h => by simp [updateAudio, h, getKey?_setKey_self],
    fun h => by simp [updateAudio, h, getKey?_setKey_self],
    fun e h => by simp [updateWindow, h, getKey?_setKey_self],
    fun h => by simp [updateWindow, h, getKey?_setKey_self],
    fun v h => by simp [updateTextOverlay, h],
    fun h => by simp [updateTextOverlay, h],
    fun v h => by simp [updateTextOverlay, h],
    fun h => by simp [updateTextOverlay, h],
    fun v h => by simp [updateTextOverlay, h],
    fun h => by simp [updateTextOverlay, h],
    fun h => ?_⟩
  have h1 : getKey? (updateAudio cfg id { muted := some true }).audio id =
      some ⟨1, true⟩ := by
    simp [updateAudio, h, getKey?_setKey_self]
  simp [updateAudio, h1, getKey?_setKey_self]

/-- C4 witness: from the default (empty-audio) document, muting `"x"` and
then setting its volume to `0.3` yields `{volume: 0.3, muted: true}`;
a present `rows := 0` still overwrites the layout default `2`. -/
theorem partial_update_semantics_witness :
    getKey? (updateAudio (updateAudio DEFAULT_CONFIG "x" { muted := some true })
        "x" { volume := some (3/10) }).audio "x" = some ⟨3/10, true⟩ ∧
    (updateLayout DEFAULT_CONFIG { rows := some 0 }).layout.rows = 0 ∧
    (updateLayout DEFAULT_CONFIG { rows := some 0 }).layout.columns = 2 := by
  have h := partial_update_semantics DEFAULT_CONFIG "x"
    { rows := some 0 } {} {} {}
  exact ⟨(h.2.2.2.2.2.2.2.2.2.2.2.2.2.2) (by decide),
    h.1 0 (by decide), (h.2.2.2.1) (by decide)⟩

/-! ## C5 — `removeSource` removes the source and its settings -/

/-- C5: after `removeSource id` no source with that id remains and the
`audio`/`windows` entries for it are gone; when no source carries the id
the source list is untouched (the operation is total, never an error);
every other source, audio entry and window entry is unchanged; when the
id occurs in none of the three components the whole document is
unchanged. -/
theorem removeSource_cleans_up (cfg : ConfigShape) (id : String) :
    (∀ s ∈ (removeSource cfg id).sources, s.id ≠ id) ∧
    getKey? (removeSource cfg id).audio id = none ∧
    getKey? (removeSource cfg id).windows id = none ∧
    ((∀ s ∈ cfg.sources, s.id ≠ id) →
      (removeSource cfg id).sources = cfg.sources) ∧
    (∀ k, k ≠ id →
      getKey? (removeSource cfg id).audio k = getKey? cfg.audio k) ∧
    (∀ k, k ≠ id →
      getKey? (removeSource cfg id).windows k = getKey? cfg.windows k) ∧
    (∀ s ∈ cfg.sources, s.id ≠ id → s ∈ (removeSource cfg id).sources) ∧
    ((∀ s ∈ cfg.sources, s.id ≠ id) → getKey? cfg.audio id = none →
      getKey? cfg.windows id = none → removeSource cfg id = cfg) := by
  refine ⟨?_, ?_, ?_, ?_, ?_, ?_, ?_, ?_⟩
  · intro s hs
    have := (List.mem_filter.mp hs).2
    simpa using this
  · exact getKey?_eraseKey_self _ _
  · exact getKey?_eraseKey_self _ _
  · intro h
    have hs : List.filter (fun s => !decide (s.id = id)) cfg.sources =
        cfg.sources := by
      rw [List.filter_eq_self]
      intro s hsm
      simpa using h s hsm
    simpa [removeSource] using hs
  · intro k hk
    exact getKey?_eraseKey_ne _ _ _ hk
  · intro k hk
    exact getKey?_eraseKey_ne _ _ _ hk
  · intro s hs hne
    exact List.mem_filter.mpr ⟨hs, by simpa using hne⟩
  · intro h1 h2 h3
    have hs : List.filter (fun s => !decide (s.id = id)) cfg.sources =
        cfg.sources := by
      rw [List.filter_eq_self]
      intro s hsm
      simpa using h1 s hsm
    simp [removeSource, hs, eraseKey_of_not_mem _ _ h2,
      eraseKey_of_not_mem _ _ h3]

/-- C5 witness: removing `"b"` from `cfgABCD` leaves `[a, c, d]`, and
removing the absent id `"z"` is the identity. -/
theorem removeSource_cleans_up_witness :
    (removeSource cfgABCD "b").sources = [srcA, srcC, srcD] ∧
    removeSource cfgABCD "z" = cfgABCD := by
  have h := removeSource_cleans_up cfgABCD "z"
  refine ⟨by decide, h.2.2.2.2.2.2.2 (by decide) (by decide) (by decide)⟩

/-! ## C10 — `updateAudio`/`updateWindow` create orphan entries -/

/-- C10: `updateAudio` and `updateWindow` never check that the id refers
to a live source: for an id carried by no source they still establish an
`audio`/`windows` entry while leaving `sources` untouched, so the
mutation API can create keys with no corresponding source. -/
theorem updates_create_orphan_entries (cfg : ConfigShape) (id : String)
    (ap : AudioPartial) (wp : WindowPartial)
    (h : id ∉ cfg.sources.map (fun s => s.id)) :
    (getKey? (updateAudio cfg id ap).audio id).isSome ∧
    (updateAudio cfg id ap).sources = cfg.sources ∧
    id ∉ (updateAudio cfg id ap).sources.map (fun s => s.id) ∧
    (getKey? (updateWindow cfg id wp).windows id).isSome ∧
    (updateWindow cfg id wp).sources = cfg.sources ∧
    id ∉ (updateWindow cfg id wp).sources.map (fun s => s.id) := by
  refine ⟨?_, rfl, h, ?_, rfl, h⟩
  · simp [updateAudio, getKey?_setKey_self]
  · simp [updateWindow, getKey?_setKey_self]

/-- C10 witness: on the default document (which has no sources at all)
`updateAudio`/`updateWindow` for id `"ghost"` create entries with no
corresponding source. -/
theorem updates_create_orphan_entries_witness :
    (getKey? (updateAudio DEFAULT_CONFIG "ghost" { volume := some (1/2) }).audio
      "ghost").isSome ∧
    (getKey? (updateWindow DEFAULT_CONFIG "ghost" { x := some 3 }).windows
      "ghost").isSome ∧
    (updateAudio DEFAULT_CONFIG "ghost" { volume := some (1/2) }).sources = [] := by
  have h := updates_create_orphan_entries DEFAULT_CONFIG "ghost"
    { volume := some (1/2) } { x := some 3 } (by decide)
  exact ⟨h.1, h.2.2.2.1, h.2.1⟩

/-! ## C8 — loading merges over defaults and never fails -/

/-- C8: `load` is a total function (no persisted content makes it fail):
unparseable content falls back to the full defaults; a parsed file is
merged over the defaults field by field, every missing field taking its
default and every present field winning; in particular the claim's
scenario file `{"version": 1, "sources": []}` loads to exactly the
default document. -/
theorem load_merges_over_defaults (p : PersistedConfig) (e : String) :
    load (.error e) = DEFAULT_CONFIG ∧
    (p.version = none → (load (.ok p)).version = 1) ∧
    (p.sources = none → (load (.ok p)).sources = []) ∧
    (p.layout = none → (load (.ok p)).layout = ⟨2, 2⟩) ∧
    (p.audio = none → (load (.ok p)).audio = []) ∧
    (p.windows = none → (load (.ok p)).windows = []) ∧
    (p.textOverlay = none →
      (load (.ok p)).textOverlay = ⟨"", .top, false⟩) ∧
    (p.showIds = none → (load (.ok p)).showIds = true) ∧
    (p.youtubeNoCookie = none → (load (.ok p)).youtubeNoCookie = true) ∧
    (p.hideCursor = none → (load (.ok p)).hideCursor = false) ∧
    (∀ v, p.layout = some v → (load (.ok p)).layout = v) ∧
    (∀ v, p.sources = some v → (load (.ok p)).sources = v) ∧
    (∀ v, p.showIds = some v → (load (.ok p)).showIds = v) ∧
    load (.ok { version := some 1, sources := some [] }) = DEFAULT_CONFIG := by
  refine ⟨rfl,
    fun h => by simp [load, mergeParsed, h, DEFAULT_CONFIG],
    fun h => by simp [load, mergeParsed, h],
    fun h => by simp [load, mergeParsed, h, DEFAULT_CONFIG],
    fun h => by simp [load, mergeParsed, h, DEFAULT_CONFIG],
    fun h => by simp [load, mergeParsed, h, DEFAULT_CONFIG],
    fun h => by simp [load, mergeParsed, h, DEFAULT_CONFIG],
    fun h => by simp [load, mergeParsed, h, DEFAULT_CONFIG],
    fun h => by simp [load, mergeParsed, h, DEFAULT_CONFIG],
    fun h => by simp [load, mergeParsed, h, DEFAULT_CONFIG],
    fun v h => by simp [load, mergeParsed, h],
    fun v h => by simp [load, mergeParsed, h],
    fun v h => by simp [load, mergeParsed, h],
    rfl⟩

/-- C8 witness: a wholly empty parsed file takes every default, and a
corrupt file falls back to the full default document. -/
theorem load_merges_over_defaults_witness :
    load (.error "Unexpected token") = DEFAULT_CONFIG ∧
    (load (.ok {})).layout = ⟨2, 2⟩ ∧
    (load (.ok {})).showIds = true ∧
    (load (.ok { showIds := some false })).showIds = false := by
  have h := load_merges_over_defaults {} "Unexpected token"
  have h2 := load_merges_over_defaults { showIds := some false } ""
  exact ⟨h.1, h.2.2.2.1 rfl, h.2.2.2.2.2.2.2.1 rfl,
    (h2.2.2.2.2.2.2.2.2.2.2.2.2.1) false rfl⟩

/-! ## C9 — the save/load round trip is the identity -/

/-- C9: serializing a snapshot of any document to the persisted format
(`JSON.stringify` emits every field) and loading it back (parse plus
merge over defaults) reproduces the document exactly. -/
theorem save_load_round_trip (cfg : ConfigShape) :
    load (.ok (toPersisted (snapshot cfg))) = cfg := rfl

/-! ## C6 — fan-out: one notification per listener, in order -/

/-- C6: a successful mutation notifies each of the N currently
subscribed listeners exactly once (the notification list has length N),
in subscription order (the i-th notification invokes the i-th listener),
and every listener receives the post-mutation snapshot, which equals the
post-mutation document (a deep copy, not a live reference). -/
theorem fanout_once_per_listener (mutator : ConfigShape → ConfigShape)
    (cfg : ConfigShape) (listeners : List (ConfigShape → α)) :
    (updateAndNotify mutator cfg listeners).2.length = listeners.length ∧
    (∀ i : ℕ, (updateAndNotify mutator cfg listeners).2[i]? =
      (listeners[i]?).map (fun fn => fn (snapshot (mutator cfg)))) ∧
    snapshot (mutator cfg) = mutator cfg ∧
    (updateAndNotify mutator cfg listeners).1 = mutator cfg := by
  refine ⟨by simp [updateAndNotify], fun i => ?_, rfl, rfl⟩
  simp [updateAndNotify]

/-! ## C3 — listener failures are *not* isolated in `emit` -/

/-- A listener whose callback throws (e.g. a write to a broken socket
surfacing synchronously). -/
def throwingListener : Listener := fun _ => .error "broken socket"

/-- A listener whose callback returns normally. -/
def okListener : Listener := fun _ => .ok ()

/-- A WebSocket client whose `send` succeeds. -/
def okSend : String → Except String Unit := fun _ => .ok ()

/-- A WebSocket client whose `send` throws. -/
def badSend : String → Except String Unit := fun _ => .error "send failed"

/-- C3 counterexample: with the subscribed listeners
`[throwingListener, okListener]`, `emit` (whose loop body has no
try/catch) invokes only the first listener — the second never receives
its notification — and the exception escapes into the mutation path,
contradicting the claim that every other listener is still notified and
the mutation completes without error (which would require the outcome
`(2, none)`). -/
theorem emit_throw_stops_delivery_counterexample :
    emitRun [throwingListener, okListener] DEFAULT_CONFIG =
      (1, some "broken socket") ∧
    emitRun [throwingListener, okListener] DEFAULT_CONFIG ≠ (2, none) := by
  exact ⟨rfl, by simp [emitRun, emitRun.go, throwingListener]⟩

/-- Every listener of the prefix `ls₁` returns normally on the
snapshot. -/
def allOk (ls : List Listener) (cfg : ConfigShape) : Prop :=
  ∀ g ∈ ls, g (snapshot cfg) = .ok ()

theorem emitRun_go_all_ok (snap : ConfigShape) :
    ∀ ls : List Listener, (∀ g ∈ ls, g snap = .ok ()) →
      emitRun.go ls snap = (ls.length, none) := by
  intro ls
  induction ls with
  | nil => intro _; rfl
  | cons fn rest ih =>
    intro h
    have hfn := h fn (List.mem_cons_self fn rest)
    have hrest := ih (fun g hg => h g (List.mem_cons_of_mem fn hg))
    simp [emitRun.go, hfn, hrest]

/-- C3 amended: per-client failures are isolated only at the WebSocket
transport layer — `broadcast` wraps each `client.send` in its own
try/catch, so every client is attempted and `broadcast` itself never
throws — while a throwing `onChange` listener makes `emit` stop at that
listener (those after it receive nothing) and the exception propagates
into the mutation path; listeners that all return normally are each
notified exactly once. -/
theorem broadcast_isolates_but_emit_does_not
    (clients : List (String → Except String Unit)) (message : String)
    (ls₁ ls₂ : List Listener) (fn : Listener) (cfg : ConfigShape)
    (e : String) (hok : allOk ls₁ cfg)
    (hthrow : fn (snapshot cfg) = .error e) :
    (broadcastRun clients message).length = clients.length ∧
    emitRun (ls₁ ++ fn :: ls₂) cfg = (ls₁.length + 1, some e) ∧
    (∀ ls : List Listener, allOk ls cfg →
      emitRun ls cfg = (ls.length, none)) := by
  refine ⟨by simp [broadcastRun], ?_, ?_⟩
  · show emitRun.go (ls₁ ++ fn :: ls₂) (snapshot cfg) = (ls₁.length + 1, some e)
    induction ls₁ with
    | nil => simp [emitRun.go, hthrow]
    | cons g rest ih =>
      have hg := hok g (List.mem_cons_self g rest)
      have hrest := ih (fun x hx => hok x (List.mem_cons_of_mem g hx))
      simp [emitRun.go, hg, hrest]
  · intro ls hls
    exact emitRun_go_all_ok (snapshot cfg) ls hls

/-- C3 amended witness: two clients (one broken) are both attempted by
`broadcast`; `emit` over `[ok, throwing, ok]` notifies exactly the first
two listeners and surfaces the error; `emit` over two healthy listeners
notifies both without error. -/
theorem broadcast_isolates_but_emit_does_not_witness :
    (broadcastRun [badSend, okSend] "m").length = 2 ∧
    emitRun [okListener, throwingListener, okListener] DEFAULT_CONFIG =
      (2, some "broken socket") ∧
    emitRun [okListener, okListener] DEFAULT_CONFIG = (2, none) := by
  have h := broadcast_isolates_but_emit_does_not [badSend, okSend] "m"
    [okListener] [okListener] throwingListener DEFAULT_CONFIG "broken socket"
    (by intro g hg; rw [List.mem_singleton] at hg; subst hg; rfl) rfl
  exact ⟨h.1, h.2.1, h.2.2 [okListener, okListener]
    (by intro g hg; simp only [List.mem_cons, List.mem_singleton] at hg;
        rcases hg with hg | hg | hg <;> first | (subst hg; rfl) | cases hg)⟩

/-! ## C7 — the `/mcp` endpoint's error envelope -/

/-- A well-formed `/mcp` body calling `addSource` on an unrecognized
URL. -/
def badUrlBody (n : ℚ) : McpBody where
  id := some n
  method := some "addSource"
  params := some { url := some "not-a-url" }

/-- C7 counterexample: a well-formed JSON body calling `addSource` with
an unrecognized URL does *not* get the HTTP 200 `{id, error}` envelope
the claim demands: `parseStream` throws inside the `try` block, the
single outer `catch` answers, and the response is HTTP 400 — so
malformed bodies are not the only requests answered with 400. -/
theorem mcp_unrecognized_url_counterexample :
    (handleMcpRequest (.ok (badUrlBody 1)) DEFAULT_CONFIG 0).1 =
      ⟨400, .catchError "Unsupported stream URL"⟩ ∧
    (handleMcpRequest (.ok (badUrlBody 1)) DEFAULT_CONFIG 0).1.status
      ≠ 200 := by
  exact ⟨by decide, by decide⟩

/-- The six method names the `switch` of `handleMcpRequest` handles. -/
def mcpMethods : List String :=
  ["listSources", "addSource", "removeSource", "updateLayout",
   "updateAudio", "updateWindow"]

/-- C7 amended: a well-formed body with an unknown (or missing) method is
answered HTTP 200 with the `{id, error: "Unknown method"}` envelope and
leaves the document untouched — never a transport failure; a malformed
body is answered HTTP 400; but additionally any exception thrown inside
the switch — in this code `parseStream` rejecting the `addSource` URL —
also lands in the catch block and is answered HTTP 400, so method-level
parse failures do *not* produce the 200 `{id, error}` envelope. -/
theorem mcp_envelope_amended (body : McpBody) (st : ConfigShape) (now : ℚ)
    (e : String)
    (hunknown : ∀ m, body.method = some m → m ∉ mcpMethods)
    (hbody : e ≠ "") :
    (handleMcpRequest (.ok body) st now).1 =
      ⟨200, .rpcError body.id "Unknown method"⟩ ∧
    (handleMcpRequest (.ok body) st now).2 = st ∧
    (handleMcpRequest (.error e) st now).1 = ⟨400, .catchError e⟩ ∧
    (∀ n perr, parseStream "not-a-url" = .error perr → perr ≠ "" →
      (handleMcpRequest (.ok (badUrlBody n)) st now).1 =
        ⟨400, .catchError perr⟩) := by
  have h1 : body.method ≠ some "listSources" := by
    intro hq
    exact (hunknown _ hq) (by simp [mcpMethods])
  have h2 : body.method ≠ some "addSource" := by
    intro hq
    exact (hunknown _ hq) (by simp [mcpMethods])
  have h3 : body.method ≠ some "removeSource" := by
    intro hq
    exact (hunknown _ hq) (by simp [mcpMethods])
  have h4 : body.method ≠ some "updateLayout" := by
    intro hq
    exact (hunknown _ hq) (by simp [mcpMethods])
  have h5 : body.method ≠ some "updateAudio" := by
    intro hq
    exact (hunknown _ hq) (by simp [mcpMethods])
  have h6 : body.method ≠ some "updateWindow" := by
    intro hq
    exact (hunknown _ hq) (by simp [mcpMethods])
  refine ⟨?_, ?_, ?_, ?_⟩
  · simp [handleMcpRequest, handleMcpSwitch, h1, h2, h3, h4, h5, h6, respondM]
  · simp [handleMcpRequest, handleMcpSwitch, h1, h2, h3, h4, h5, h6, respondM]
  · simp [handleMcpRequest, hbody]
  · intro n perr hparse hperr
    simp [handleMcpRequest, handleMcpSwitch, badUrlBody, strFalsy, hparse,
      hperr]

/-- C7 amended witness: an unknown method `"nonsense"` is answered
`200 {id, error: "Unknown method"}`, a malformed body is answered 400,
and `addSource` on `"not-a-url"` is answered 400 with the parse
message. -/
theorem mcp_envelope_amended_witness :
    (handleMcpRequest (.ok { id := some 2, method := some "nonsense" })
        DEFAULT_CONFIG 0).1 = ⟨200, .rpcError (some 2) "Unknown method"⟩ ∧
    (handleMcpRequest (.error "bad json") DEFAULT_CONFIG 0).1 =
      ⟨400, .catchError "bad json"⟩ ∧
    (handleMcpRequest (.ok (badUrlBody 2)) DEFAULT_CONFIG 0).1 =
      ⟨400, .catchError "Unsupported stream URL"⟩ := by
  have h := mcp_envelope_amended { id := some 2, method := some "nonsense" }
    DEFAULT_CONFIG 0 "bad json"
    (by intro m hm; cases hm; decide) (by decide)
  exact ⟨h.1, h.2.2.1, h.2.2.2 2 "Unsupported stream URL" rfl (by decide)⟩

/-! ## C2 — `reorder` is the stable partition by `orderedIds`

A stable sort by a natural-number key equals the concatenation of the
key "buckets" in key order, each bucket keeping the original relative
order; the bucket decomposition then turns into the claim's
known-prefix/unknown-suffix shape. -/

section StableSortByKey

variable {α : Type} (key : α → ℕ)

theorem orderedInsert_front (a : α) (m : List α)
    (h : ∀ x ∈ m, key a ≤ key x) :
    List.orderedInsert (fun u v => key u ≤ key v) a m = a :: m := by
  cases m with
  | nil => rfl
  | cons b t => simp [List.orderedInsert, h b (List.mem_cons_self b t)]

theorem orderedInsert_skip (a : α) (m₁ m₂ : List α)
    (h : ∀ x ∈ m₁, ¬ key a ≤ key x) :
    List.orderedInsert (fun u v => key u ≤ key v) a (m₁ ++ m₂) =
      m₁ ++ List.orderedInsert (fun u v => key u ≤ key v) a m₂ := by
  induction m₁ with
  | nil => rfl
  | cons b t ih =>
    have hb := h b (List.mem_cons_self b t)
    simp only [List.cons_append, List.orderedInsert, if_neg hb]
    exact congrArg (b :: ·) (ih (fun x hx => h x (List.mem_cons_of_mem b hx)))

theorem flatMap_filter_cons_of_ne (a : α) (l : List α) (is : List ℕ)
    (h : ∀ i ∈ is, key a ≠ i) :
    is.flatMap (fun i => (a :: l).filter (fun x => key x = i)) =
      is.flatMap (fun i => l.filter (fun x => key x = i)) := by
  induction is with
  | nil => rfl
  | cons j is' ih =>
    have hj := h j (List.mem_cons_self j is')
    simp only [List.flatMap_cons]
    rw [ih (fun i hi => h i (List.mem_cons_of_mem j hi))]
    congr 1
    simp [List.filter_cons, hj]

theorem orderedInsert_buckets (a : α) (l : List α) :
    ∀ is : List ℕ, is.Sorted (· < ·) → key a ∈ is →
      List.orderedInsert (fun u v => key u ≤ key v) a
          (is.flatMap (fun i => l.filter (fun x => key x = i))) =
        is.flatMap (fun i => (a :: l).filter (fun x => key x = i)) := by
  intro is hsorted hmem
  induction is with
  | nil => cases hmem
  | cons j is' ih =>
    have hj : ∀ i ∈ is', j < i := (List.sorted_cons.mp hsorted).1
    have hs' : is'.Sorted (· < ·) := (List.sorted_cons.mp hsorted).2
    simp only [List.flatMap_cons]
    by_cases hkey : key a = j
    · have hnotin : ∀ i ∈ is', key a ≠ i := by
        intro i hi h'
        have := hj i hi
        omega
      have hfront : ∀ x ∈ l.filter (fun x => key x = j) ++
          is'.flatMap (fun i => l.filter (fun x => key x = i)),
          key a ≤ key x := by
        intro x hx
        rcases List.mem_append.mp hx with hx | hx
        · have := List.of_mem_filter hx
          simp only [decide_eq_true_eq] at this
          omega
        · obtain ⟨i, hi, hxi⟩ := List.mem_flatMap.mp hx
          have h1 := List.of_mem_filter hxi
          simp only [decide_eq_true_eq] at h1
          have := hj i hi
          omega
      rw [orderedInsert_front key a _ hfront,
        flatMap_filter_cons_of_ne key a l is' hnotin]
      simp [List.filter_cons, hkey]
    · have hmem' : key a ∈ is' := by
        rcases List.mem_cons.mp hmem with h' | h'
        · exact absurd h' hkey
        · exact h'
      have hja : j < key a := hj _ hmem'
      have hskip : ∀ x ∈ l.filter (fun x => key x = j), ¬ key a ≤ key x := by
        intro x hx
        have := List.of_mem_filter hx
        simp only [decide_eq_true_eq] at this
        omega
      rw [orderedInsert_skip key a _ _ hskip, ih hs' hmem']
      simp [List.filter_cons, hkey]

theorem insertionSort_eq_buckets (is : List ℕ) (hsorted : is.Sorted (· < ·)) :
    ∀ l : List α, (∀ x ∈ l, key x ∈ is) →
      List.insertionSort (fun u v => key u ≤ key v) l =
        is.flatMap (fun i => l.filter (fun x => key x = i)) := by
  intro l
  induction l with
  | nil =>
    intro _
    simp
  | cons a t ih =>
    intro hcover
    have ht := ih (fun x hx => hcover x (List.mem_cons_of_mem a hx))
    calc List.insertionSort (fun u v => key u ≤ key v) (a :: t)
        = List.orderedInsert (fun u v => key u ≤ key v) a
            (List.insertionSort (fun u v => key u ≤ key v) t) := rfl
      _ = is.flatMap (fun i => (a :: t).filter (fun x => key x = i)) := by
            rw [ht]
            exact orderedInsert_buckets key a t is hsorted
              (hcover a (List.mem_cons_self a t))

theorem insertionSort_id_of_const_key (c : ℕ) (hconst : ∀ x : α, key x = c) :
    ∀ l : List α, List.insertionSort (fun u v => key u ≤ key v) l = l := by
  intro l
  induction l with
  | nil => rfl
  | cons a t ih =>
    calc List.insertionSort (fun u v => key u ≤ key v) (a :: t)
        = List.orderedInsert (fun u v => key u ≤ key v) a
            (List.insertionSort (fun u v => key u ≤ key v) t) := rfl
      _ = a :: t := by
            rw [ih]
            exact orderedInsert_front key a t
              (fun x _ => by rw [hconst a, hconst x])

end StableSortByKey

theorem jsSortKey_le (order : List String) (s : StreamSource) :
    jsSortKey order s ≤ order.length := by
  unfold jsSortKey
  cases h : order.findIdx? (fun oid => oid = s.id) with
  | none => exact Nat.le_refl _
  | some i =>
    exact Nat.le_of_lt (List.findIdx?_eq_some_iff_getElem.mp h).1

theorem jsSortKey_cons (oid : String) (order : List String)
    (s : StreamSource) :
    jsSortKey (oid :: order) s =
      if s.id = oid then 0 else jsSortKey order s + 1 := by
  by_cases h : s.id = oid
  · simp [jsSortKey, List.findIdx?_cons, h]
  · have h' : ¬ oid = s.id := fun hq => h hq.symm
    unfold jsSortKey
    rw [List.findIdx?_cons, if_neg (by simpa using h'), List.findIdx?_succ]
    cases hf : order.findIdx? (fun o => o = s.id) with
    | none => simp [if_neg h]
    | some i => simp [if_neg h]

theorem jsSortKey_eq_length_iff (order : List String) (s : StreamSource) :
    jsSortKey order s = order.length ↔ s.id ∉ order := by
  unfold jsSortKey
  cases h : order.findIdx? (fun oid => oid = s.id) with
  | none =>
    simp only [List.findIdx?_eq_none_iff] at h
    constructor
    · intro _ hmem
      have := h s.id hmem
      simp at this
    · intro _
      rfl
  | some i =>
    obtain ⟨hlt, hp, -⟩ := List.findIdx?_eq_some_iff_getElem.mp h
    simp only [decide_eq_true_eq] at hp
    change i = order.length ↔ _
    constructor
    · intro hq
      omega
    · intro hmem
      exact absurd (hp ▸ List.getElem_mem hlt) hmem

theorem find?_filter_ne (l : List StreamSource) (oid oid' : String)
    (hne : oid' ≠ oid) :
    (l.filter (fun x => x.id ≠ oid)).find? (fun s => s.id = oid') =
      l.find? (fun s => s.id = oid') := by
  induction l with
  | nil => rfl
  | cons s t ih =>
    by_cases hs : s.id = oid
    · have hs' : ¬ s.id = oid' := fun hq => hne (hq ▸ hs ▸ rfl)
      rw [List.filter_cons, if_neg (by simp [hs]),
        List.find?_cons_of_neg t (by simpa using hs')]
      exact ih
    · rw [List.filter_cons, if_pos (by simp [hs])]
      by_cases hs' : s.id = oid'
      · rw [List.find?_cons_of_pos _ (by simpa using hs'),
          List.find?_cons_of_pos t (by simpa using hs')]
      · rw [List.find?_cons_of_neg _ (by simpa using hs'),
          List.find?_cons_of_neg t (by simpa using hs')]
        exact ih

theorem filter_id_eq_find?_toList (l : List StreamSource) (oid : String)
    (h : (l.map (fun s => s.id)).Nodup) :
    l.filter (fun x => x.id = oid) =
      (l.find? (fun x => x.id = oid)).toList := by
  induction l with
  | nil => rfl
  | cons s t ih =>
    rw [List.map_cons, List.nodup_cons] at h
    by_cases hs : s.id = oid
    · have hnone : t.filter (fun x => x.id = oid) = [] := by
        rw [List.filter_eq_nil_iff]
        intro x hx hq
        simp only [decide_eq_true_eq] at hq
        apply h.1
        rw [hs, ← hq]
        exact List.mem_map_of_mem _ hx
      simp [List.filter_cons, hs, List.find?_cons, hnone]
    · simp [List.filter_cons, List.find?_cons, hs, ih h.2]

theorem rangeBuckets_eq_filterMap :
    ∀ (order : List String) (l : List StreamSource),
      (l.map (fun s => s.id)).Nodup → order.Nodup →
      (List.range order.length).flatMap
          (fun i => l.filter (fun x => jsSortKey order x = i)) =
        order.filterMap (fun oid => l.find? (fun s => s.id = oid)) := by
  intro order
  induction order with
  | nil =>
    intro l _ _
    rfl
  | cons oid order' ih =>
    intro l hl hord
    have hoid : oid ∉ order' := (List.nodup_cons.mp hord).1
    have hord' : order'.Nodup := (List.nodup_cons.mp hord).2
    have hl' : ((l.filter (fun x => x.id ≠ oid)).map (fun s => s.id)).Nodup :=
      List.Nodup.sublist ((List.filter_sublist l).map (fun s => s.id)) hl
    have hhead : l.filter (fun x => jsSortKey (oid :: order') x = 0) =
        l.filter (fun x => x.id = oid) := by
      apply List.filter_congr
      intro x _
      by_cases hx : x.id = oid
      · simp [jsSortKey_cons, hx]
      · simp [jsSortKey_cons, hx]
    have hbucket : ∀ i : ℕ,
        l.filter (fun x => jsSortKey (oid :: order') x = i + 1) =
          (l.filter (fun x => x.id ≠ oid)).filter
            (fun x => jsSortKey order' x = i) := by
      intro i
      rw [List.filter_filter]
      apply List.filter_congr
      intro x _
      by_cases hx : x.id = oid
      · simp [jsSortKey_cons, hx]
      · simp [jsSortKey_cons, hx]
    have htail := ih (l.filter (fun x => x.id ≠ oid)) hl' hord'
    calc (List.range (oid :: order').length).flatMap
            (fun i => l.filter (fun x => jsSortKey (oid :: order') x = i))
        = l.filter (fun x => jsSortKey (oid :: order') x = 0) ++
            ((List.range order'.length).map (fun i => i + 1)).flatMap
              (fun i => l.filter (fun x => jsSortKey (oid :: order') x = i)) := by
          rw [List.length_cons, List.range_succ_eq_map, List.flatMap_cons]
      _ = l.filter (fun x => x.id = oid) ++
            (List.range order'.length).flatMap
              (fun i => l.filter (fun x => jsSortKey (oid :: order') x = i + 1)) := by
          rw [hhead, List.flatMap_map]
      _ = (l.find? (fun x => x.id = oid)).toList ++
            (List.range order'.length).flatMap
              (fun i => (l.filter (fun x => x.id ≠ oid)).filter
                (fun x => jsSortKey order' x = i)) := by
          rw [filter_id_eq_find?_toList l oid hl]
          congr 1
          exact congrArg _ (funext hbucket)
      _ = (l.find? (fun x => x.id = oid)).toList ++
            order'.filterMap
              (fun oid' => (l.filter (fun x => x.id ≠ oid)).find?
                (fun s => s.id = oid')) := by rw [htail]
      _ = (l.find? (fun x => x.id = oid)).toList ++
            order'.filterMap (fun oid' => l.find? (fun s => s.id = oid')) := by
          congr 1
          apply List.filterMap_congr
          intro oid' hmem
          exact find?_filter_ne l oid oid' (fun hq => hoid (hq ▸ hmem))
      _ = (oid :: order').filterMap
            (fun oid' => l.find? (fun s => s.id = oid')) := by
          rw [List.filterMap_cons]
          cases hcase : l.find? (fun x => x.id = oid) <;> simp [hcase]

/-- C2: under the document's id-uniqueness invariant (and a
duplicate-free `orderedIds`), `reorder(orderedIds)` puts the sources
whose id appears in `orderedIds` first, in the order given by
`orderedIds`, followed by all remaining sources in their original
relative order; and `reorder([])` is the identity on every document
(a no-op, not an error). -/
theorem reorder_stable_partition (cfg : ConfigShape) (order : List String)
    (hsrc : (cfg.sources.map (fun s => s.id)).Nodup) (hord : order.Nodup) :
    (reorder cfg order).sources =
      order.filterMap (fun oid => cfg.sources.find? (fun s => s.id = oid)) ++
      cfg.sources.filter (fun s => s.id ∉ order) ∧
    (∀ cfg' : ConfigShape, reorder cfg' [] = cfg') := by
  constructor
  · have hcover : ∀ x ∈ cfg.sources,
        jsSortKey order x ∈ List.range (order.length + 1) :=
      fun x _ => List.mem_range.mpr (Nat.lt_succ_of_le (jsSortKey_le order x))
    have hsorted : (List.range (order.length + 1)).Sorted (· < ·) :=
      List.sorted_lt_range _
    show List.insertionSort
        (fun a b => jsSortKey order a ≤ jsSortKey order b) cfg.sources = _
    rw [insertionSort_eq_buckets (jsSortKey order)
      (List.range (order.length + 1)) hsorted cfg.sources hcover,
      List.range_succ, List.flatMap_append]
    congr 1
    · exact rangeBuckets_eq_filterMap order cfg.sources hsrc hord
    · rw [List.flatMap_cons, List.flatMap_nil, List.append_nil]
      apply List.filter_congr
      intro x _
      by_cases hx : x.id ∈ order
      · simp [jsSortKey_eq_length_iff, hx]
      · simp [jsSortKey_eq_length_iff, hx]
  · intro cfg'
    have hkey : ∀ s : StreamSource, jsSortKey [] s = 0 := fun s => rfl
    simp [reorder,
      insertionSort_id_of_const_key (jsSortKey []) 0 hkey cfg'.sources]

/-- C2 witness: on sources `[a, b, c, d]`, `reorder(["c", "a"])` yields
`[c, a, b, d]`, and `reorder([])` leaves the document unchanged. -/
theorem reorder_stable_partition_witness :
    (reorder cfgABCD ["c", "a"]).sources = [srcC, srcA, srcB, srcD] ∧
    reorder cfgABCD [] = cfgABCD := by
  have h := reorder_stable_partition cfgABCD ["c", "a"] (by decide) (by decide)
  refine ⟨?_, h.2 cfgABCD⟩
  rw [h.1]
  decide

end Vcast
